import Mathlib

/-!
# DORA Analyzer — shallow embedding and verification

Shallow embedding of the DORA Analyzer questionnaire application
(React/TypeScript) and proofs about its score aggregator, its in-memory
submission store, its PDF table construction, and its form-submit /
delivery flow.

Strings are modelled as `List Char` (`Str`); JavaScript numbers holding
answer/option values as `Int`; category scores as `ℚ` wrapped in
`Option` where `none` models the non-numeric `NaN` produced by a
JavaScript division `0/0`.
-/

set_option autoImplicit false

/-- Strings of the embedded program, as lists of characters. -/
abbrev Str := List Char

/-- The two supported locales (`'es' | 'pt'` in `src/types`). -/
inductive Lang where
  | es
  | pt
deriving DecidableEq

/-- A localized string: one text per supported locale. -/
structure Localized where
  es : Str
  pt : Str
deriving DecidableEq

/-- Select the text for a locale (`text[language]` in the source). -/
def Localized.get (t : Localized) : Lang → Str
  | Lang.es => t.es
  | Lang.pt => t.pt

/-- One selectable option of a question: an integer value and a
localized label (`{ value, text }` in `src/types`). -/
structure QOption where
  value : Int
  text : Localized
deriving DecidableEq

/-- A question: id, owning category id, localized prompt text (may
contain `\x7bproviderName\x7d` / `\x7bfinancialEntityName\x7d`
placeholders), and its options (`Question` in `src/types`). -/
structure Question where
  id : Nat
  categoryId : Nat
  text : Localized
  options : List QOption
deriving DecidableEq

/-- A category: id and localized display name (`Category` in
`src/types`). -/
structure Category where
  id : Nat
  name : Localized
deriving DecidableEq

/-- A submission (`FormDataType` in `src/types`): provider name,
financial-entity name, user name, creation timestamp (`date`, a
string), answer set (`Record<number, number>`, modelled as an
association list from question id to answer value) and observation set
(`Record<number, string>`). -/
structure FormDataType where
  providerName : Str
  financialEntityName : Str
  userName : Str
  date : Str
  answers : List (Nat × Int)
  observations : List (Nat × Str)
deriving DecidableEq

/-! ## Submission store (src/unnamed/part_002, `App`)

The store is the `formData : FormDataType[]` React state of `App`.
The list-level bodies of the three state updates are extracted as
`addSubmission` / `updateSubmission` / `deleteSubmission` (the names
the specification uses for them). -/

/-- `setFormData([...formData, data])` — the store update performed by
`handleFormSubmit` (src/unnamed/part_002 line 48): spread the old list
and append the new submission. -/
def addSubmission (formData : List FormDataType) (data : FormDataType) :
    List FormDataType :=
  formData ++ [data]

/-- `handleUpdateForm` (src/unnamed/part_002 lines 98–100):
`formData.map(form => form.date === updatedForm.date ? updatedForm : form)`. -/
def updateSubmission (formData : List FormDataType)
    (updatedForm : FormDataType) : List FormDataType :=
  formData.map (fun form =>
    if form.date = updatedForm.date then updatedForm else form)

/-- `handleDeleteForm` (src/unnamed/part_002 lines 102–104):
`formData.filter(form => form.date !== dateToDelete)`. -/
def deleteSubmission (formData : List FormDataType) (dateToDelete : Str) :
    List FormDataType :=
  formData.filter (fun form => form.date ≠ dateToDelete)

/-- `handleSaveChanges` (src/unnamed/part_001 lines 45–55): the updated
form is the selected form with its answer and observation sets replaced
wholesale (`{ ...formData[selectedFormIndex], answers: editedAnswers,
observations: editedObservations }`). -/
def handleSaveChanges (orig : FormDataType) (editedAnswers : List (Nat × Int))
    (editedObservations : List (Nat × Str)) : FormDataType :=
  { orig with answers := editedAnswers, observations := editedObservations }

/-! ## Claims C3, C4, C8, C9 about the store -/

/-- C3: for every store state and every identity key (creation
timestamp) matching no stored submission, `updateSubmission` and
`deleteSubmission` leave the collection exactly unchanged, and a second
`deleteSubmission` with the same key (on any store) changes nothing. -/
theorem C3_unknown_key_noop (l : List FormDataType) (u : FormDataType)
    (k : Str) (hu : ∀ t ∈ l, t.date ≠ u.date) (hk : ∀ t ∈ l, t.date ≠ k) :
    updateSubmission l u = l ∧ deleteSubmission l k = l ∧
      ∀ (l2 : List FormDataType) (k2 : Str),
        deleteSubmission (deleteSubmission l2 k2) k2 =
          deleteSubmission l2 k2 := by
  refine ⟨?_, ?_, ?_⟩
  · unfold updateSubmission
    conv_rhs => rw [← List.map_id l]
    refine List.map_congr_left ?_
    intro t ht
    simp [hu t ht]
  · unfold deleteSubmission
    refine List.filter_eq_self.mpr ?_
    intro t ht
    simpa using hk t ht
  · intro l2 k2
    unfold deleteSubmission
    rw [List.filter_filter]
    refine List.filter_congr ?_
    intro t _
    simp

/-- Witness for C3 at a concrete store and keys. -/
theorem C3_unknown_key_noop_witness :
    updateSubmission
        [{ providerName := ['p'], financialEntityName := ['e'],
           userName := ['u'], date := ['d'], answers := [],
           observations := [] }]
        { providerName := ['q'], financialEntityName := ['f'],
          userName := ['v'], date := ['x'], answers := [],
          observations := [] } =
      [{ providerName := ['p'], financialEntityName := ['e'],
         userName := ['u'], date := ['d'], answers := [],
         observations := [] }] ∧
    deleteSubmission
        [{ providerName := ['p'], financialEntityName := ['e'],
           userName := ['u'], date := ['d'], answers := [],
           observations := [] }] ['x'] =
      [{ providerName := ['p'], financialEntityName := ['e'],
         userName := ['u'], date := ['d'], answers := [],
         observations := [] }] ∧
    ∀ (l2 : List FormDataType) (k2 : Str),
      deleteSubmission (deleteSubmission l2 k2) k2 =
        deleteSubmission l2 k2 :=
  C3_unknown_key_noop _ _ _ (by decide) (by decide)

/-- A concrete submission with a given date, used by witnesses. -/
def mkSub (d : Str) : FormDataType :=
  { providerName := ['p'], financialEntityName := ['e'], userName := ['u'],
    date := d, answers := [], observations := [] }

/-- C4: `updateSubmission` is idempotent — applying the same update
twice yields the same submission collection as applying it once. -/
theorem C4_update_idempotent (l : List FormDataType) (u : FormDataType) :
    updateSubmission (updateSubmission l u) u = updateSubmission l u := by
  unfold updateSubmission
  rw [List.map_map]
  refine List.map_congr_left ?_
  intro t _
  by_cases h : t.date = u.date <;> simp [h]

/-- C8: `addSubmission` appends at the end — the collection grows by
one, every previously stored submission stays at its original position,
and the new submission sits at the old length. -/
theorem C8_add_appends (l : List FormDataType) (s : FormDataType) :
    (addSubmission l s).length = l.length + 1 ∧
      (∀ i, i < l.length → (addSubmission l s)[i]? = l[i]?) ∧
      (addSubmission l s)[l.length]? = some s := by
  refine ⟨by simp [addSubmission], ?_, ?_⟩
  · intro i hi
    unfold addSubmission
    rw [List.getElem?_append, if_pos hi]
  · unfold addSubmission
    rw [List.getElem?_append_right (Nat.le_refl _)]
    simp

/-- Witness for C8 at a concrete store and submission. -/
theorem C8_add_appends_witness :
    (addSubmission
        [{ providerName := ['p'], financialEntityName := ['e'],
           userName := ['u'], date := ['d'], answers := [],
           observations := [] }]
        { providerName := ['q'], financialEntityName := ['f'],
          userName := ['v'], date := ['x'], answers := [],
          observations := [] }).length = 2 ∧
      (∀ i, i < 1 →
        (addSubmission
            [{ providerName := ['p'], financialEntityName := ['e'],
               userName := ['u'], date := ['d'], answers := [],
               observations := [] }]
            { providerName := ['q'], financialEntityName := ['f'],
              userName := ['v'], date := ['x'], answers := [],
              observations := [] })[i]? =
          [({ providerName := ['p'], financialEntityName := ['e'],
              userName := ['u'], date := ['d'], answers := [],
              observations := [] } : FormDataType)][i]?) ∧
      (addSubmission
          [{ providerName := ['p'], financialEntityName := ['e'],
             userName := ['u'], date := ['d'], answers := [],
             observations := [] }]
          { providerName := ['q'], financialEntityName := ['f'],
            userName := ['v'], date := ['x'], answers := [],
            observations := [] })[1]? =
        some { providerName := ['q'], financialEntityName := ['f'],
               userName := ['v'], date := ['x'], answers := [],
               observations := [] } :=
  C8_add_appends _ _

/-- C9: identity-key uniqueness is not enforced — `updateSubmission`
replaces every stored submission whose date equals the update's date
(not just the first match), leaves every other position unchanged, and
`deleteSubmission` removes every submission carrying the key and keeps
every one that does not. -/
theorem C9_duplicate_keys (l : List FormDataType) (u : FormDataType)
    (k : Str) (i : Nat) (t : FormDataType) (ht : l[i]? = some t) :
    (updateSubmission l u).length = l.length ∧
      (t.date = u.date → (updateSubmission l u)[i]? = some u) ∧
      (t.date ≠ u.date → (updateSubmission l u)[i]? = some t) ∧
      (∀ x ∈ deleteSubmission l k, x.date ≠ k) ∧
      (∀ x ∈ l, x.date ≠ k → x ∈ deleteSubmission l k) := by
  refine ⟨by simp [updateSubmission], ?_, ?_, ?_, ?_⟩
  · intro hd
    unfold updateSubmission
    rw [List.getElem?_map, ht]
    simp [hd]
  · intro hd
    unfold updateSubmission
    rw [List.getElem?_map, ht]
    simp [hd]
  · intro x hx
    unfold deleteSubmission at hx
    have := List.of_mem_filter hx
    simpa using this
  · intro x hx hxk
    unfold deleteSubmission
    refine List.mem_filter.mpr ⟨hx, ?_⟩
    simpa using hxk

/-- Witness for C9: a store holding two submissions with the same
creation timestamp; the update replaces the second one too. -/
theorem C9_duplicate_keys_witness :
    (updateSubmission [mkSub ['d'], mkSub ['d']]
        { mkSub ['d'] with userName := ['w'] })[1]? =
      some { mkSub ['d'] with userName := ['w'] } :=
  (C9_duplicate_keys [mkSub ['d'], mkSub ['d']]
      { mkSub ['d'] with userName := ['w'] } ['d'] 1 (mkSub ['d'])
      (by decide)).2.1 (by decide)

/-- C5: a submission added to the store and then updated through
`handleSaveChanges` with new answer and observation sets reads back
(lookup by its creation timestamp) as exactly the new answers and
observations, with provider name, financial-entity name, user name and
timestamp unchanged. The freshness hypothesis reflects the data-model
assumption that creation timestamps are unique. -/
theorem C5_roundtrip (l : List FormDataType) (s : FormDataType)
    (newAns : List (Nat × Int)) (newObs : List (Nat × Str))
    (hfresh : ∀ t ∈ l, t.date ≠ s.date) :
    (updateSubmission (addSubmission l s)
          (handleSaveChanges s newAns newObs)).find?
        (fun f => f.date == s.date) =
      some (handleSaveChanges s newAns newObs) ∧
    (handleSaveChanges s newAns newObs).answers = newAns ∧
    (handleSaveChanges s newAns newObs).observations = newObs ∧
    (handleSaveChanges s newAns newObs).providerName = s.providerName ∧
    (handleSaveChanges s newAns newObs).financialEntityName =
      s.financialEntityName ∧
    (handleSaveChanges s newAns newObs).userName = s.userName ∧
    (handleSaveChanges s newAns newObs).date = s.date := by
  set u := handleSaveChanges s newAns newObs with hu
  have hud : u.date = s.date := rfl
  have hstore : updateSubmission (addSubmission l s) u = l ++ [u] := by
    unfold updateSubmission addSubmission
    rw [List.map_append]
    congr 1
    · conv_rhs => rw [← List.map_id l]
      refine List.map_congr_left ?_
      intro t htl
      simp [hfresh t htl, hud]
    · simp [hud]
  rw [hstore]
  refine ⟨?_, rfl, rfl, rfl, rfl, rfl, rfl⟩
  clear hstore
  induction l with
  | nil => simp [List.find?, hud]
  | cons a rest ih =>
    have ha : (a.date == s.date) = false := by
      simpa using hfresh a (List.mem_cons_self a rest)
    simp only [List.cons_append, List.find?_cons, ha]
    exact ih (fun t htl => hfresh t (List.mem_cons_of_mem a htl))

/-- Witness for C5 at a concrete store, submission and edits. -/
theorem C5_roundtrip_witness :
    (updateSubmission (addSubmission [mkSub ['a']] (mkSub ['d']))
          (handleSaveChanges (mkSub ['d']) [(1, 80)] [(1, ['o'])])).find?
        (fun f => f.date == ['d']) =
      some (handleSaveChanges (mkSub ['d']) [(1, 80)] [(1, ['o'])]) ∧
    (handleSaveChanges (mkSub ['d']) [(1, 80)] [(1, ['o'])]).answers =
      [(1, 80)] ∧
    (handleSaveChanges (mkSub ['d']) [(1, 80)] [(1, ['o'])]).observations =
      [(1, ['o'])] ∧
    (handleSaveChanges (mkSub ['d']) [(1, 80)] [(1, ['o'])]).providerName =
      (mkSub ['d']).providerName ∧
    (handleSaveChanges (mkSub ['d']) [(1, 80)]
          [(1, ['o'])]).financialEntityName =
      (mkSub ['d']).financialEntityName ∧
    (handleSaveChanges (mkSub ['d']) [(1, 80)] [(1, ['o'])]).userName =
      (mkSub ['d']).userName ∧
    (handleSaveChanges (mkSub ['d']) [(1, 80)] [(1, ['o'])]).date =
      (mkSub ['d']).date :=
  C5_roundtrip [mkSub ['a']] (mkSub ['d']) [(1, 80)] [(1, ['o'])]
    (by decide)

/-! ## Score aggregator (src/src/components/Report.tsx, `generateChartData`)

The `data` array of the chart dataset: for each category, the questions
of that category are collected, each question's answer value is looked
up (`selectedData.answers[q.id] || 0`, i.e. 0 when absent — an answer
value of 0 also yields 0 either way), and the values are summed with
`reduce` and divided by the count. The division is the raw JavaScript
`/`; when the category has no questions it is `0 / 0 = NaN`, modelled
here as `none`. -/

/-- One entry of the chart `data` array (Report.tsx lines 27–31):
`categoryScores.reduce((sum, score) => sum + score, 0) /
categoryScores.length`, with `none` standing for the `NaN` a length of
zero produces. -/
def categoryScore (questions : List Question) (selectedData : FormDataType)
    (category : Category) : Option ℚ :=
  let categoryQuestions := questions.filter
    (fun q => q.categoryId = category.id)
  let categoryScores := categoryQuestions.map
    (fun q => (((selectedData.answers.lookup q.id).getD 0 : Int) : ℚ))
  if categoryScores.length = 0 then none
  else
    some (categoryScores.foldl (fun sum score => sum + score) 0 /
      (categoryScores.length : ℚ))

/-- The whole chart `data` array (Report.tsx line 27):
`categories.map(category => ...)`. -/
def generateChartData (categories : List Category)
    (questions : List Question) (selectedData : FormDataType) :
    List (Option ℚ) :=
  categories.map (fun category => categoryScore questions selectedData category)

/-- `List.foldl` with `+` starting from `a` is `a` plus the sum. -/
theorem foldl_add_eq_sum (l : List ℚ) (a : ℚ) :
    l.foldl (fun sum score => sum + score) a = a + l.sum := by
  induction l generalizing a with
  | nil => simp
  | cons x xs ih => simp [ih, add_assoc]

/-- A list of rationals each in `[0, 100]` sums to something in
`[0, 100 * length]`. -/
theorem sum_bounds (l : List ℚ) (h : ∀ x ∈ l, 0 ≤ x ∧ x ≤ 100) :
    0 ≤ l.sum ∧ l.sum ≤ 100 * l.length := by
  induction l with
  | nil => simp
  | cons x xs ih =>
    have hx := h x (List.mem_cons_self x xs)
    have hxs := ih (fun y hy => h y (List.mem_cons_of_mem x hy))
    constructor
    · simpa using add_nonneg hx.1 hxs.1
    · simp only [List.sum_cons, List.length_cons]
      push_cast
      calc x + xs.sum ≤ 100 + 100 * xs.length :=
            add_le_add hx.2 hxs.2
        _ = 100 * (xs.length + 1) := by ring

/-- C1: for a category with `n > 0` questions, the aggregated score is
the sum of the submission's answer values over the category's questions
(0 when absent) divided by `n`; and the score lies in `[0, 100]`
whenever every option value lies in `[0, 100]` and every recorded
answer is the value of one of its question's options (the data-model
invariant that answers are selected option values). -/
theorem C1_category_score (questions : List Question) (S : FormDataType)
    (C : Category)
    (hn : 0 < (questions.filter (fun q => q.categoryId = C.id)).length)
    (hopt : ∀ q ∈ questions, ∀ o ∈ q.options,
      (0 : Int) ≤ o.value ∧ o.value ≤ 100)
    (hans : ∀ q ∈ questions,
      (S.answers.lookup q.id).all
        (fun v => q.options.any (fun o => o.value == v)) = true) :
    categoryScore questions S C =
      some (((questions.filter (fun q => q.categoryId = C.id)).map
          (fun q => (((S.answers.lookup q.id).getD 0 : Int) : ℚ))).sum /
        (((questions.filter (fun q => q.categoryId = C.id)).length : ℚ))) ∧
    ∀ r : ℚ, categoryScore questions S C = some r → 0 ≤ r ∧ r ≤ 100 := by
  set qs := questions.filter (fun q => q.categoryId = C.id) with hqs
  set scores := qs.map
    (fun q => (((S.answers.lookup q.id).getD 0 : Int) : ℚ)) with hscores
  have hlen : scores.length = qs.length := by simp [hscores]
  have hlen0 : ¬ scores.length = 0 := by omega
  have hval : categoryScore questions S C =
      some (scores.sum / (qs.length : ℚ)) := by
    simp only [categoryScore]
    rw [← hqs, ← hscores]
    rw [if_neg hlen0, foldl_add_eq_sum, zero_add, hlen]
  refine ⟨hval, ?_⟩
  intro r hr
  rw [hval] at hr
  have hr' : r = scores.sum / (qs.length : ℚ) := by
    exact (Option.some.inj hr).symm
  have hbound : ∀ x ∈ scores, 0 ≤ x ∧ x ≤ 100 := by
    intro x hx
    rw [hscores] at hx
    obtain ⟨q, hq, hqx⟩ := List.mem_map.mp hx
    have hqmem : q ∈ questions := List.mem_of_mem_filter hq
    have hv : (0 : Int) ≤ (S.answers.lookup q.id).getD 0 ∧
        (S.answers.lookup q.id).getD 0 ≤ 100 := by
      cases hlook : S.answers.lookup q.id with
      | none => simp
      | some v =>
        have := hans q hqmem
        rw [hlook] at this
        simp only [Option.all_some, List.any_eq_true, beq_iff_eq] at this
        obtain ⟨o, ho, hov⟩ := this
        have := hopt q hqmem o ho
        simp only [Option.getD_some]
        omega
    rw [← hqx]
    constructor
    · exact_mod_cast hv.1
    · exact_mod_cast hv.2
  have hsum := sum_bounds scores hbound
  have hnq : (0 : ℚ) < (qs.length : ℚ) := by
    exact_mod_cast hn
  subst hr'
  constructor
  · exact div_nonneg hsum.1 (le_of_lt hnq)
  · rw [div_le_iff₀ hnq]
    calc scores.sum ≤ 100 * scores.length := hsum.2
      _ = 100 * (qs.length : ℚ) := by rw [hlen]

/-- Witness for C1: the spec's own scenario — one category, two
questions, answers 80 and 40, aggregated score 60. -/
theorem C1_category_score_witness :
    categoryScore
        [{ id := 1, categoryId := 1, text := ⟨['t'], ['t']⟩,
           options := [⟨0, ⟨['n'], ['n']⟩⟩, ⟨80, ⟨['y'], ['y']⟩⟩] },
         { id := 2, categoryId := 1, text := ⟨['s'], ['s']⟩,
           options := [⟨0, ⟨['n'], ['n']⟩⟩, ⟨40, ⟨['y'], ['y']⟩⟩] }]
        { mkSub ['d'] with answers := [(1, 80), (2, 40)] }
        { id := 1, name := ⟨['g'], ['g']⟩ } = some 60 := by
  have h := (C1_category_score
      [{ id := 1, categoryId := 1, text := ⟨['t'], ['t']⟩,
         options := [⟨0, ⟨['n'], ['n']⟩⟩, ⟨80, ⟨['y'], ['y']⟩⟩] },
       { id := 2, categoryId := 1, text := ⟨['s'], ['s']⟩,
         options := [⟨0, ⟨['n'], ['n']⟩⟩, ⟨40, ⟨['y'], ['y']⟩⟩] }]
      { mkSub ['d'] with answers := [(1, 80), (2, 40)] }
      { id := 1, name := ⟨['g'], ['g']⟩ }
      (by decide) (by decide) (by decide)).1
  rw [h]
  simp [List.filter, List.lookup, mkSub]
  norm_num

/-- C7: for a category with zero matching questions the aggregator
divides the empty sum by zero with no guard: the result is the
non-numeric `NaN` of JavaScript division (modelled as `none`). -/
theorem C7_empty_category (questions : List Question) (S : FormDataType)
    (C : Category)
    (h : questions.filter (fun q => q.categoryId = C.id) = []) :
    categoryScore questions S C = none := by
  unfold categoryScore
  rw [h]
  simp

/-- Witness for C7: the division-by-zero branch is reachable — a
question list whose single question belongs to another category. -/
theorem C7_empty_category_witness :
    categoryScore
        [{ id := 1, categoryId := 2, text := ⟨['t'], ['t']⟩,
           options := [] }]
        (mkSub ['d']) { id := 1, name := ⟨['g'], ['g']⟩ } = none :=
  C7_empty_category _ _ _ (by decide)

/-! ## PDF table rows (src/src/components/Report.tsx, `generatePDF`)

Each row of `tableData` (Report.tsx lines 89–95) is a three-cell list:
the question prompt with the placeholder tokens substituted by
JavaScript `String.prototype.replace` with a string pattern — which
replaces only the FIRST occurrence, and runs the replacement string
through ECMAScript `GetSubstitution`, expanding `$$`, `$&`,
dollar-backtick and dollar-quote even for a string pattern — then the
selected option's label (`''` when nothing matches), then the
observation (`''` when absent). -/

/-- Does `tok` occur at the very start of `s`? -/
def startsWith : Str → Str → Bool
  | [], _ => true
  | _ :: _, [] => false
  | t :: ts, c :: cs => t == c && startsWith ts cs

/-- The dollar character introducing ECMAScript replacement
patterns. -/
def dollarCh : Char := Char.ofNat 36

/-- The ampersand of the `$&` (matched text) replacement pattern. -/
def ampCh : Char := Char.ofNat 38

/-- The backtick of the ECMAScript before-match replacement pattern. -/
def backtickCh : Char := Char.ofNat 96

/-- The single quote of the ECMAScript after-match replacement
pattern. -/
def quoteCh : Char := Char.ofNat 39

/-- ECMAScript `GetSubstitution` for a string search pattern (no
capture groups, no named captures): `$$` expands to a dollar, `$&` to
the matched token, dollar-backtick to the part of the subject before
the match, dollar-quote to the part after the match; every other
character — including a `$` followed by anything else (such as `$1`,
which has no capture to refer to) — is passed through literally. -/
def getSubstitution (matched before after : Str) : Str → Str
  | [] => []
  | c :: rest =>
    if c = dollarCh then
      match rest with
      | [] => [c]
      | d :: rest2 =>
        if d = dollarCh then
          dollarCh :: getSubstitution matched before after rest2
        else if d = ampCh then
          matched ++ getSubstitution matched before after rest2
        else if d = backtickCh then
          before ++ getSubstitution matched before after rest2
        else if d = quoteCh then
          after ++ getSubstitution matched before after rest2
        else c :: d :: getSubstitution matched before after rest2
    else c :: getSubstitution matched before after rest

/-- The position of the first occurrence of `tok` in `s`, if any. -/
def firstMatchPos (tok : Str) (s : Str) : Option Nat :=
  if startsWith tok s then some 0
  else
    match s with
    | [] => none
    | _ :: rest => (firstMatchPos tok rest).map (fun p => p + 1)

/-- JavaScript `s.replace(tok, repl)` with a string pattern: find the
first occurrence of `tok`; if there is none, return `s` unchanged;
otherwise splice in the `GetSubstitution` expansion of `repl` between
the part of `s` before the occurrence and the part after it. -/
def replaceFirst (tok repl : Str) (s : Str) : Str :=
  match firstMatchPos tok s with
  | none => s
  | some p =>
    s.take p ++
      getSubstitution tok (s.take p) (s.drop (p + tok.length)) repl ++
      s.drop (p + tok.length)

/-- Does `tok` occur anywhere in `s`? -/
def containsTok (tok : Str) : Str → Bool
  | [] => startsWith tok []
  | c :: rest => startsWith tok (c :: rest) || containsTok tok rest

/-- An opening curly brace. -/
def lcurly : Char := Char.ofNat 123

/-- A closing curly brace. -/
def rcurly : Char := Char.ofNat 125

/-- The provider-name placeholder token of the question prompts. -/
def providerTok : Str := lcurly :: ("providerName".toList ++ [rcurly])

/-- The financial-entity-name placeholder token of the question
prompts. -/
def entityTok : Str := lcurly :: ("financialEntityName".toList ++ [rcurly])

/-- The first table cell (Report.tsx lines 90–92):
`q.text[language].replace(providerTok, selectedForm.providerName)
.replace(entityTok, selectedForm.financialEntityName)`. -/
def renderedPrompt (text provider entity : Str) : Str :=
  replaceFirst entityTok entity (replaceFirst providerTok provider text)

/-- The second table cell (Report.tsx line 93):
`q.options.find(opt => opt.value === selectedForm.answers[q.id])?.text[language] || ''`.
A missing answer makes the strict comparison false for every option. -/
def answerCell (q : Question) (answers : List (Nat × Int)) (lang : Lang) :
    Str :=
  ((q.options.find? (fun opt => answers.lookup q.id = some opt.value)).map
    (fun opt => opt.text.get lang)).getD []

/-- The third table cell (Report.tsx line 94):
`selectedForm.observations[q.id] || ''`. -/
def observationCell (observations : List (Nat × Str)) (qid : Nat) : Str :=
  (observations.lookup qid).getD []

/-- One row of the `tableData` array (Report.tsx lines 89–95). -/
def tableRow (q : Question) (form : FormDataType) (lang : Lang) :
    List Str :=
  [renderedPrompt (q.text.get lang) form.providerName
     form.financialEntityName,
   answerCell q form.answers lang,
   observationCell form.observations q.id]

/-- The full `tableData` array: `questions.map(q => [...])`. -/
def tableData (questions : List Question) (form : FormDataType)
    (lang : Lang) : List (List Str) :=
  questions.map (fun q => tableRow q form lang)

/-- `tok` starts every list of the form `tok ++ b`. -/
theorem startsWith_append_self (tok b : Str) :
    startsWith tok (tok ++ b) = true := by
  induction tok with
  | nil => rfl
  | cons t ts ih => simp [startsWith, ih]

/-- A replacement string containing no dollar character is inserted
literally by `GetSubstitution`. -/
theorem getSubstitution_no_dollar (matched before after repl : Str)
    (h : dollarCh ∉ repl) :
    getSubstitution matched before after repl = repl := by
  induction repl with
  | nil => rfl
  | cons c rest ih =>
    have hc : ¬ c = dollarCh := fun he =>
      h (he ▸ List.mem_cons_self c rest)
    have step : getSubstitution matched before after (c :: rest) =
        c :: getSubstitution matched before after rest := by
      rw [getSubstitution.eq_def]
      simp [hc]
    rw [step]
    exact congrArg (c :: ·)
      (ih (fun hm => h (List.mem_cons_of_mem c hm)))

/-- If no occurrence of `tok` begins strictly inside `a`, the first
occurrence of `tok` in `a ++ tok ++ b` is at position `a.length`. -/
theorem firstMatchPos_split (tok : Str) (a b : Str)
    (h : ∀ i, i < a.length →
      startsWith tok ((a ++ tok ++ b).drop i) = false) :
    firstMatchPos tok (a ++ tok ++ b) = some a.length := by
  induction a with
  | nil =>
    simp only [List.nil_append]
    rw [firstMatchPos.eq_def, if_pos (startsWith_append_self tok b)]
    rfl
  | cons x a' ih =>
    have h0 : startsWith tok ((x :: a' ++ tok ++ b)) = false := by
      have := h 0 (Nat.zero_lt_succ _)
      simpa using this
    rw [firstMatchPos.eq_def, h0]
    simp only [Bool.false_eq_true, if_false, List.cons_append,
      List.length_cons]
    rw [ih (fun i hi => by
      have := h (i + 1) (by simpa using Nat.succ_lt_succ hi)
      simpa using this)]
    rfl

/-- If no occurrence of `tok` begins strictly inside `a`, then
`replaceFirst` on `a ++ tok ++ b` replaces exactly that occurrence,
splicing in the `GetSubstitution` expansion of the replacement. -/
theorem replaceFirst_split (tok repl : Str) (a b : Str)
    (h : ∀ i, i < a.length →
      startsWith tok ((a ++ tok ++ b).drop i) = false) :
    replaceFirst tok repl (a ++ tok ++ b) =
      a ++ getSubstitution tok a b repl ++ b := by
  have htake : (a ++ tok ++ b).take a.length = a := by
    rw [List.append_assoc]
    exact List.take_left a (tok ++ b)
  have hdrop : (a ++ tok ++ b).drop (a.length + tok.length) = b := by
    rw [← List.length_append a tok]
    exact List.drop_left (a ++ tok) b
  unfold replaceFirst
  rw [firstMatchPos_split tok a b h]
  simp only [htake, hdrop]

/-! ## Claims C6 and C10 about the table rows -/

/-- A question whose prompt contains the provider placeholder twice,
exhibiting the first-occurrence-only behaviour of `replace`. -/
def dupTokenQuestion : Question :=
  { id := 1, categoryId := 1,
    text := ⟨providerTok ++ providerTok, providerTok ++ providerTok⟩,
    options := [] }

/-- A submission with one-letter provider and entity names. -/
def dupTokenForm : FormDataType :=
  { mkSub ['d'] with
    providerName := ['X'],
    financialEntityName := ['Y'] }

/-- A question whose prompt is exactly the provider placeholder,
occurring once. -/
def dollarTokenQuestion : Question :=
  { id := 2, categoryId := 1,
    text := ⟨providerTok, providerTok⟩,
    options := [] }

/-- A submission whose provider name is the two-character replacement
pattern `$&`, which ECMAScript `replace` expands to the matched token
instead of inserting it literally. -/
def dollarForm : FormDataType :=
  { mkSub ['d'] with
    providerName := [dollarCh, ampCh],
    financialEntityName := ['Y'] }

/-- Counterexample to C6 as stated, twice over: for a prompt holding
the provider-name token twice, the rendered first cell is `X` followed
by the intact token (JavaScript `replace` with a string pattern
substitutes only the first occurrence); and for a prompt holding the
token once with provider name `$&`, `GetSubstitution` expands `$&` to
the matched token, so the rendered cell is the token itself. In both
rows an occurrence of the provider-name token remains. -/
theorem C6_token_remains_counterexample :
    ((tableRow dupTokenQuestion dupTokenForm Lang.es)[0]? =
        some ('X' :: providerTok) ∧
      containsTok providerTok
        ((tableRow dupTokenQuestion dupTokenForm Lang.es)[0]?.getD []) =
        true) ∧
    ((tableRow dollarTokenQuestion dollarForm Lang.es)[0]? =
        some providerTok ∧
      containsTok providerTok
        ((tableRow dollarTokenQuestion dollarForm
          Lang.es)[0]?.getD []) = true) := by
  exact ⟨⟨rfl, rfl⟩, rfl, rfl⟩

/-- C6 amended: the first cell of a table row is the prompt with the
FIRST occurrence of the provider-name token substituted with the
submission's provider name, and then the first occurrence of the
financial-entity-name token in the result substituted with the
submission's entity name, provided neither field value contains a
dollar character; occurrences beyond the first remain, and a field
value containing ECMAScript replacement patterns (`$$`, `$&`,
dollar-backtick, dollar-quote) is expanded by `GetSubstitution` rather
than inserted literally. -/
theorem C6_first_occurrence_substitution (q : Question)
    (form : FormDataType) (lang : Lang) (a b c d : Str)
    (htext : q.text.get lang = a ++ providerTok ++ b)
    (ha : ∀ i, i < a.length →
      startsWith providerTok ((a ++ providerTok ++ b).drop i) = false)
    (hpd : dollarCh ∉ form.providerName)
    (hmid : a ++ form.providerName ++ b = c ++ entityTok ++ d)
    (hc : ∀ i, i < c.length →
      startsWith entityTok ((c ++ entityTok ++ d).drop i) = false)
    (hed : dollarCh ∉ form.financialEntityName) :
    (tableRow q form lang)[0]? =
      some (c ++ form.financialEntityName ++ d) := by
  simp only [tableRow, renderedPrompt, List.getElem?_cons_zero,
    Option.some.injEq]
  rw [htext, replaceFirst_split _ _ _ _ ha,
    getSubstitution_no_dollar _ _ _ _ hpd, hmid,
    replaceFirst_split _ _ _ _ hc,
    getSubstitution_no_dollar _ _ _ _ hed]

/-- Witness for the amended C6: a prompt holding each token once and
dollar-free field values; both tokens are substituted. -/
theorem C6_first_occurrence_substitution_witness :
    (tableRow
        { id := 1, categoryId := 1,
          text := ⟨providerTok ++ '/' :: entityTok,
                   providerTok ++ '/' :: entityTok⟩,
          options := [] }
        { mkSub ['d'] with
          providerName := ['A'],
          financialEntityName := ['B'] } Lang.es)[0]? =
      some (['A', '/'] ++ ['B'] ++ []) :=
  C6_first_occurrence_substitution
    { id := 1, categoryId := 1,
      text := ⟨providerTok ++ '/' :: entityTok,
               providerTok ++ '/' :: entityTok⟩,
      options := [] }
    { mkSub ['d'] with
      providerName := ['A'],
      financialEntityName := ['B'] }
    Lang.es [] ('/' :: entityTok) ['A', '/'] []
    (by rfl) (by decide) (by decide) (by rfl) (by decide) (by decide)

/-- C10: table-row construction is total — a question with no recorded
answer, or whose recorded answer value matches no option, renders an
empty answer-label cell; a missing observation renders an empty
observation cell; and the row is always a three-cell list (no failure
on missing keys). -/
theorem C10_row_totality (q : Question) (form : FormDataType)
    (lang : Lang) :
    (form.answers.lookup q.id = none →
      answerCell q form.answers lang = []) ∧
    (∀ v : Int, form.answers.lookup q.id = some v →
      (∀ o ∈ q.options, o.value ≠ v) →
      answerCell q form.answers lang = []) ∧
    (form.observations.lookup q.id = none →
      observationCell form.observations q.id = []) ∧
    (tableRow q form lang).length = 3 := by
  refine ⟨?_, ?_, ?_, rfl⟩
  · intro hnone
    unfold answerCell
    rw [List.find?_eq_none.mpr]
    · rfl
    · intro opt _
      simp [hnone]
  · intro v hv hnoopt
    unfold answerCell
    rw [List.find?_eq_none.mpr]
    · rfl
    · intro opt hopt
      simp only [hv, Option.some.injEq, decide_eq_true_eq]
      exact fun heq => hnoopt opt hopt (heq ▸ rfl)
  · intro hnone
    unfold observationCell
    rw [hnone]
    rfl

/-- A concrete one-option question used by the C10 witness. -/
def yesOnlyQuestion : Question :=
  { id := 1, categoryId := 1, text := ⟨['t'], ['t']⟩,
    options := [⟨80, ⟨['y'], ['y']⟩⟩] }

/-- Witness for C10: a question with one option, a submission whose
answer for it matches no option and which records no observation. -/
theorem C10_row_totality_witness :
    ((mkSub ['d']).answers.lookup 1 = none →
      answerCell yesOnlyQuestion (mkSub ['d']).answers Lang.es = []) ∧
    (∀ v : Int, (mkSub ['d']).answers.lookup 1 = some v →
      (∀ o ∈ yesOnlyQuestion.options, o.value ≠ v) →
      answerCell yesOnlyQuestion (mkSub ['d']).answers Lang.es = []) ∧
    ((mkSub ['d']).observations.lookup 1 = none →
      observationCell (mkSub ['d']).observations 1 = []) ∧
    (tableRow yesOnlyQuestion (mkSub ['d']) Lang.es).length = 3 :=
  C10_row_totality yesOnlyQuestion (mkSub ['d']) Lang.es

/-! ## Form-submit and delivery flow (src/unnamed/part_002, `handleFormSubmit`)

`handleFormSubmit` first appends the new submission to the store
(`setFormData([...formData, data])`, line 48), builds the PDF, and then
runs the two Telegram calls inside `try`/`catch`. On success it logs
and switches the view to `report`; on a rejection of either call the
`catch` block only runs `console.error` — the view is not changed and
no notice is written into any React state. The delivery outcome is the
`deliveryOk` parameter; `consoleErrors` counts `console.error` calls
(the developer console, not part of the rendered UI). -/

/-- The five values of the `currentView` state of `App`. -/
inductive View where
  | home
  | form
  | report
  | savedForms
  | drafts
deriving DecidableEq

/-- The part of `App`'s React state that `handleFormSubmit` touches,
plus a count of `console.error` calls. The rendered UI is a function of
`formData` and `currentView` only. -/
structure AppState where
  formData : List FormDataType
  currentView : View
  consoleErrors : Nat
deriving DecidableEq

/-- `handleFormSubmit` (src/unnamed/part_002 lines 47–75): append the
submission, then either (delivery resolves) switch to the report view,
or (delivery rejects) fall into the `catch` block, which only logs. -/
def handleFormSubmit (st : AppState) (data : FormDataType)
    (deliveryOk : Bool) : AppState :=
  let st1 := { st with formData := addSubmission st.formData data }
  if deliveryOk then
    { st1 with currentView := View.report }
  else
    { st1 with consoleErrors := st1.consoleErrors + 1 }

/-- Counterexample to C2 as stated: starting from the form view with an
empty store, a failed delivery leaves the application in exactly the
original view with the submission appended and one more console error —
the post-state carries no user-visible failure notice anywhere. -/
theorem C2_no_user_notice_counterexample :
    handleFormSubmit ⟨[], View.form, 0⟩ (mkSub ['d']) false =
      ⟨[mkSub ['d']], View.form, 0 + 1⟩ := by
  rfl

/-- C2 amended: a failed delivery is caught without crashing
(`handleFormSubmit` is total) and only logged to the developer console;
no user-visible failure notice is shown and the view does not change;
the submission list contains the newly added submission at the end
regardless of delivery outcome. -/
theorem C2_failure_caught_submission_retained (st : AppState)
    (data : FormDataType) :
    (handleFormSubmit st data false).formData =
      addSubmission st.formData data ∧
    (handleFormSubmit st data false).currentView = st.currentView ∧
    (handleFormSubmit st data false).consoleErrors =
      st.consoleErrors + 1 ∧
    ∀ deliveryOk : Bool,
      data ∈ (handleFormSubmit st data deliveryOk).formData := by
  refine ⟨rfl, rfl, rfl, ?_⟩
  intro deliveryOk
  cases deliveryOk <;> simp [handleFormSubmit, addSubmission]

/-- Witness for the amended C2 at a concrete state and submission. -/
theorem C2_failure_caught_submission_retained_witness :
    (handleFormSubmit ⟨[], View.form, 0⟩ (mkSub ['d']) false).formData =
      addSubmission [] (mkSub ['d']) ∧
    (handleFormSubmit ⟨[], View.form, 0⟩ (mkSub ['d'])
        false).currentView = View.form ∧
    (handleFormSubmit ⟨[], View.form, 0⟩ (mkSub ['d'])
        false).consoleErrors = 0 + 1 ∧
    ∀ deliveryOk : Bool,
      mkSub ['d'] ∈
        (handleFormSubmit ⟨[], View.form, 0⟩ (mkSub ['d'])
          deliveryOk).formData :=
  C2_failure_caught_submission_retained ⟨[], View.form, 0⟩ (mkSub ['d'])
